import Mathlib

/-!
# Lobby list items of the multiplayer dialog (`src/yuzu/multiplayer/lobby_p.h`)

A shallow embedding of the list-model item classes of the lobby window and of
the part of Qt they are written against (`QString`, `QVariant`, `QPixmap`,
`QBrush`, `QStandardItem`), followed by theorems about what the items display,
how they are coloured and how they are ordered.

Conventions.
* A `QString` is a list of characters; `QStringLiteral "txt"` is the literal.
* What depends on the running desktop (the collation of the current locale, the
  installed translation catalogue, the icon theme) is passed in as an `Env`.
* Machine integers are `Nat`/`Int` reduced modulo `2 ^ 32` where the code
  narrows them.
-/

set_option linter.unusedVariables false
set_option linter.dupNamespace false

namespace Lobby

/-! ## Strings -/

/-- A Qt string, as the sequence of its characters. -/
abbrev QString := List Char

/-- The string literal `QStringLiteral("...")`. -/
def QStringLiteral (s : String) : QString := s.toList

/-- The call `QString::isEmpty`. -/
def QString.isEmpty (s : QString) : Bool := s.length == 0

/-- Decimal digits of a natural number, the text of `QString::number`. -/
def QString.number (n : Nat) : QString := (Nat.repr n).toList

/-! ### `QString::arg`

A format string is cut into literal text and place markers `%N` (optionally
written `%LN`); the markers are numbered by the decimal number that follows the
percent sign. `arg(a1, ..., ak)` replaces, in one pass, the marker with the
lowest number by `a1`, the next lowest by `a2`, and so on; markers for which no
argument is left stay as they are written. -/

/-- A piece of a format string. -/
inductive Part where
  | text (s : QString)
  | marker (number : Nat) (raw : QString)
  deriving DecidableEq, Repr

/-- Scanner state of the format-string parser. -/
inductive Scan where
  | plain
  | percent (raw : QString)
  | digits (number : Nat) (raw : QString)
  deriving DecidableEq, Repr

/-- Value of a decimal digit character, if it is one. -/
def digitValue (c : Char) : Option Nat :=
  if c.isDigit then some (c.toNat - 48) else none

/-- The piece a finished run of digits stands for: numbers above 999 are not
place markers and stay literal text. -/
def closeDigits (number : Nat) (raw : QString) : Part :=
  if number ≤ 999 then Part.marker number raw else Part.text raw

/-- One character of the format string seen in state `plain`. -/
def scanPlain (c : Char) : Scan × List Part :=
  if c = '%' then (Scan.percent [c], []) else (Scan.plain, [Part.text [c]])

/-- One step of the format-string parser: the next state and the pieces that
are complete after reading `c`. -/
def scanStep (st : Scan) (c : Char) : Scan × List Part :=
  match st with
  | Scan.plain => scanPlain c
  | Scan.percent raw =>
    if c = 'L' ∧ raw.length = 1 then (Scan.percent (raw ++ [c]), [])
    else
      match digitValue c with
      | some d => (Scan.digits d (raw ++ [c]), [])
      | none =>
        let r := scanPlain c
        (r.1, Part.text raw :: r.2)
  | Scan.digits number raw =>
    match digitValue c with
    | some d => (Scan.digits (10 * number + d) (raw ++ [c]), [])
    | none =>
      let r := scanPlain c
      (r.1, closeDigits number raw :: r.2)

/-- The pieces still pending when the format string ends. -/
def scanEnd : Scan → List Part
  | Scan.plain => []
  | Scan.percent raw => [Part.text raw]
  | Scan.digits number raw => [closeDigits number raw]

/-- Parse a format string from state `st`. -/
def parseFormatFrom : Scan → QString → List Part
  | st, [] => scanEnd st
  | st, c :: cs =>
    let r := scanStep st c
    r.2 ++ parseFormatFrom r.1 cs

/-- Parse a format string into its pieces. -/
def parseFormat (format : QString) : List Part :=
  parseFormatFrom Scan.plain format

/-- Insert `n` into an ascending list without duplicates. -/
def insertNumber (n : Nat) : List Nat → List Nat
  | [] => [n]
  | m :: ms => if n < m then n :: m :: ms else if n = m then m :: ms else m :: insertNumber n ms

/-- The distinct marker numbers of a format string, ascending. -/
def markerNumbers : List Part → List Nat
  | [] => []
  | Part.text _ :: ps => markerNumbers ps
  | Part.marker n _ :: ps => insertNumber n (markerNumbers ps)

/-- Position of `n` in a list of numbers. -/
def positionOf (n : Nat) : List Nat → Nat
  | [] => 0
  | m :: ms => if n = m then 0 else positionOf n ms + 1

/-- Text of one piece after substitution. -/
def fillPart (numbers : List Nat) (args : List QString) : Part → QString
  | Part.text s => s
  | Part.marker n raw =>
    match args.get? (positionOf n numbers) with
    | some a => a
    | none => raw

/-- Text of all pieces after substitution. -/
def fillParts (numbers : List Nat) (args : List QString) : List Part → QString
  | [] => []
  | p :: ps => fillPart numbers args p ++ fillParts numbers args ps

/-- The call `format.arg(a1, ..., ak)` with the arguments `args`. -/
def QString.arg (format : QString) (args : List QString) : QString :=
  fillParts (markerNumbers (parseFormat format)) args (parseFormat format)

/-! ## Machine integers -/

/-- Width of `int` and of `u32`. -/
def intModulus : Nat := 4294967296

/-- Narrowing to a 32-bit two-complement `int`. -/
def toInt32 (v : Int) : Int :=
  let r := v % (intModulus : Int)
  if r < 2147483648 then r else r - (intModulus : Int)

/-- Narrowing to `u32`. -/
def toU32 (v : Nat) : Nat := v % intModulus

/-! ## Colours, brushes, pixmaps -/

/-- A colour: either red, green and blue components or the invalid colour. -/
inductive QColor where
  | rgb (r g b : Nat)
  | invalid
  deriving DecidableEq, Repr

/-- Validity test of a colour. -/
def QColor.isValid : QColor → Bool
  | QColor.rgb _ _ _ => true
  | QColor.invalid => false

/-- A solid-pattern brush of one colour, the only kind this file builds. -/
structure QBrush where
  color : QColor
  deriving DecidableEq, Repr

/-- The brush `QBrush(QColor(r, g, b))`. -/
def QBrush.ofRgb (r g b : Nat) : QBrush := ⟨QColor.rgb r g b⟩

/-- The brush `QBrush(nullptr)`: the null pointer names no colour, so the brush
carries the invalid colour. -/
def QBrush.ofNullptr : QBrush := ⟨QColor.invalid⟩

/-- What a pixmap shows, abstractly. -/
inductive PixmapData where
  | none
  | source (id : Nat)
  | uninitialised
  | filledBlack
  | smooth (src : PixmapData) (fromWidth fromHeight : Nat)
  deriving DecidableEq, Repr

/-- A pixmap: its size and what it shows. -/
structure QPixmap where
  width : Nat
  height : Nat
  content : PixmapData
  deriving DecidableEq, Repr

namespace QPixmap

/-- The default-constructed pixmap `QPixmap()`. -/
def null : QPixmap := ⟨0, 0, PixmapData.none⟩

/-- The call `QPixmap::isNull`. -/
def isNull (p : QPixmap) : Bool := p.width == 0 || p.height == 0

/-- The pixmap `QPixmap(w, h)`, null when a side is zero. -/
def ofSize (w h : Nat) : QPixmap :=
  if w = 0 ∨ h = 0 then null else ⟨w, h, PixmapData.uninitialised⟩

/-- The call `fill(Qt::black)`. -/
def fillBlack (p : QPixmap) : QPixmap :=
  if p.isNull then p else ⟨p.width, p.height, PixmapData.filledBlack⟩

/-- The size `QSize(wd, ht).scaled(w, h, Qt::KeepAspectRatio)`. -/
def scaledSize (wd ht w h : Nat) : Nat × Nat :=
  if wd = 0 ∨ ht = 0 then (w, h)
  else
    let rw := h * wd / ht
    if rw ≤ w then (rw, h) else (w, w * ht / wd)

/-- The call `scaled(w, h, Qt::KeepAspectRatio, Qt::SmoothTransformation)`. -/
def scaled (p : QPixmap) (w h : Nat) : QPixmap :=
  if p.isNull then null
  else if w = 0 ∨ h = 0 then null
  else
    let s := scaledSize p.width p.height w h
    let nw := max s.1 1
    let nh := max s.2 1
    if nw = p.width ∧ nh = p.height then p
    else ⟨nw, nh, PixmapData.smooth p.content p.width p.height⟩

end QPixmap

/-- An icon: the null icon `QIcon()` or the icon made from one pixmap. -/
inductive QIcon where
  | null
  | ofPixmap (p : QPixmap)
  deriving DecidableEq, Repr

/-! ## Lobby members and variants -/

/-- A member of a room (class `LobbyMember`). -/
structure LobbyMember where
  username : QString
  nickname : QString
  title_id : Nat
  game_name : QString
  deriving DecidableEq, Repr

namespace LobbyMember

/-- The default-constructed member. -/
def default : LobbyMember := ⟨[], [], 0, []⟩

/-- The method `LobbyMember::GetName`. -/
def GetName (m : LobbyMember) : QString :=
  if m.username.isEmpty || m.username == m.nickname then
    m.nickname
  else
    QString.arg (QStringLiteral "%1 (%2)") [m.nickname, m.username]

/-- The method `LobbyMember::GetTitleId`. -/
def GetTitleId (m : LobbyMember) : Nat := m.title_id

/-- The method `LobbyMember::GetGameName`. -/
def GetGameName (m : LobbyMember) : QString := m.game_name

end LobbyMember

/-- A `QVariant` holding one of the types this header stores in an item. -/
inductive QVariant where
  | Invalid
  | ofBool (b : Bool)
  | ofInt (v : Int)
  | ofUInt (v : Nat)
  | ofULongLong (v : Nat)
  | ofString (s : QString)
  | ofList (l : List QVariant)
  | ofPixmap (p : QPixmap)
  | ofIcon (i : QIcon)
  | ofBrush (b : QBrush)
  | ofMember (m : LobbyMember)

/-- Decimal text of an integer. -/
def intText (v : Int) : QString := (toString v).toList

/-- Value of a run of decimal digits, `none` if a character is not a digit. -/
def digitsValue : QString → Nat → Option Nat
  | [], acc => some acc
  | c :: cs, acc =>
    match digitValue c with
    | some d => digitsValue cs (10 * acc + d)
    | none => none

/-- The number a string spells in base ten (surrounding blanks and a sign
allowed), when it fits 64 bits; `none` otherwise. -/
def parseLongLong (s : QString) : Option Int :=
  let t := ((s.dropWhile Char.isWhitespace).reverse.dropWhile Char.isWhitespace).reverse
  let neg := t.head? == some '-'
  let ds :=
    match t with
    | '-' :: ds => ds
    | '+' :: ds => ds
    | ds => ds
  if ds.isEmpty then none
  else
    match digitsValue ds 0 with
    | none => none
    | some n =>
      let v : Int := if neg then - (n : Int) else (n : Int)
      if - (9223372036854775808 : Int) ≤ v ∧ v ≤ 9223372036854775807 then some v else none

namespace QVariant

/-- The call `QVariant::isValid`. -/
def isValid : QVariant → Bool
  | Invalid => false
  | _ => true

/-- The call `QVariant::toString`. -/
def toString : QVariant → QString
  | ofBool b => if b then QStringLiteral "true" else QStringLiteral "false"
  | ofInt v => intText v
  | ofUInt v => QString.number v
  | ofULongLong v => QString.number v
  | ofString s => s
  | _ => []

/-- The call `QVariant::toInt`: numbers are narrowed to `int` without a range
check, text is read as a number, anything else gives zero. -/
def toInt : QVariant → Int
  | ofBool b => if b then 1 else 0
  | ofInt v => v
  | ofUInt v => toInt32 v
  | ofULongLong v => toInt32 v
  | ofString s =>
    match parseLongLong s with
    | some v => toInt32 v
    | none => 0
  | _ => 0

/-- The call `QVariant::toBool`. -/
def toBool : QVariant → Bool
  | ofBool b => b
  | ofInt v => v != 0
  | ofUInt v => v != 0
  | ofULongLong v => v != 0
  | ofString s =>
    let l := s.map Char.toLower
    !(l.isEmpty || l == QStringLiteral "0" || l == QStringLiteral "false")
  | _ => false

/-- The call `QVariant::toList`. -/
def toList : QVariant → List QVariant
  | ofList l => l
  | _ => []

/-- The call `value<QPixmap>()`. -/
def valuePixmap : QVariant → QPixmap
  | ofPixmap p => p
  | _ => QPixmap.null

/-- The call `value<LobbyMember>()`. -/
def valueLobbyMember : QVariant → LobbyMember
  | ofMember m => m
  | _ => LobbyMember.default

end QVariant

/-! ## Item roles and `QStandardItem` -/

namespace Qt

/-- The role `Qt::DisplayRole`. -/
def DisplayRole : Int := 0
/-- The role `Qt::DecorationRole`. -/
def DecorationRole : Int := 1
/-- The role `Qt::EditRole`. -/
def EditRole : Int := 2
/-- The role `Qt::ForegroundRole`. -/
def ForegroundRole : Int := 9
/-- The role `Qt::UserRole`. -/
def UserRole : Int := 256

end Qt

/-- One stored value of an item. -/
structure QStandardItemData where
  role : Int
  value : QVariant

/-- A `QStandardItem`: its stored values, in the order they were first set. -/
structure QStandardItem where
  values : List QStandardItemData

namespace QStandardItem

/-- The default-constructed item. -/
def empty : QStandardItem := ⟨[]⟩

/-- Store `value` under `role` in a value list: an entry of that role is
overwritten, or erased when `value` is invalid; otherwise an entry is appended. -/
def store (value : QVariant) (role : Int) : List QStandardItemData → List QStandardItemData
  | [] => [⟨role, value⟩]
  | e :: es =>
    if e.role = role then
      if value.isValid then ⟨role, value⟩ :: es else es
    else e :: store value role es

/-- The call `QStandardItem::setData(value, role)`. -/
def setData (self : QStandardItem) (value : QVariant) (role : Int) : QStandardItem :=
  let r := if role = Qt.EditRole then Qt.DisplayRole else role
  ⟨store value r self.values⟩

/-- First value stored under role `r`. -/
def lookup (r : Int) : List QStandardItemData → QVariant
  | [] => QVariant.Invalid
  | e :: es => if e.role = r then e.value else lookup r es

/-- The call `QStandardItem::data(role)`. -/
def data (self : QStandardItem) (role : Int) : QVariant :=
  let r := if role = Qt.EditRole then Qt.DisplayRole else role
  lookup r self.values

end QStandardItem

/-- The class `LobbyItem`, a `QStandardItem` that adds nothing. -/
abbrev LobbyItem := QStandardItem

/-- The inherited `LobbyItem::data`. -/
def LobbyItem.data (self : LobbyItem) (role : Int) : QVariant := QStandardItem.data self role

/-- What the items take from the running desktop. -/
structure Env where
  /-- The comparison `a.localeAwareCompare(b)` of the current locale. -/
  localeAwareCompare : QString → QString → Int
  /-- The translation `QObject::tr(text)` of the installed catalogue. -/
  tr : QString → QString
  /-- The pixmap `QIcon::fromTheme(name).pixmap(extent)` of the icon theme,
  the null pixmap when the theme has no such icon. -/
  themePixmap : QString → Nat → QPixmap

/-! ## The item classes

Each class stores its fields in the inherited item under roles counted from
`Qt::UserRole` and overrides `data` and `operator<`. Inside an override, a call
`data(SomeRole)` is a call of the same override. -/

namespace LobbyItemName

/-- The constant `NameRole`. -/
def NameRole : Int := Qt.UserRole + 1
/-- The constant `PasswordRole`. -/
def PasswordRole : Int := Qt.UserRole + 2

/-- The constructor `LobbyItemName(has_password, name)`. -/
def LobbyItemName (has_password : Bool) (name : QString) : LobbyItem :=
  let self := QStandardItem.empty
  let self := self.setData (QVariant.ofString name) NameRole
  self.setData (QVariant.ofBool has_password) PasswordRole

/-- The override `LobbyItemName::data`. -/
def data (env : Env) (self : LobbyItem) (role : Int) : QVariant :=
  if h : role = Qt.DecorationRole then
    let has_password := (data env self PasswordRole).toBool
    QVariant.ofIcon (if has_password then
        QIcon.ofPixmap (env.themePixmap (QStringLiteral "lock") 16)
      else QIcon.null)
  else if h2 : role ≠ Qt.DisplayRole then
    LobbyItem.data self role
  else
    QVariant.ofString (data env self NameRole).toString
termination_by (if role = Qt.DecorationRole ∨ role = Qt.DisplayRole then 1 else 0)
decreasing_by
  all_goals simp_wf
  all_goals simp_all [Qt.DecorationRole, Qt.DisplayRole, Qt.UserRole, NameRole, PasswordRole]

/-- The override `LobbyItemName::operator<`. -/
def operatorLt (env : Env) (self other : LobbyItem) : Bool :=
  env.localeAwareCompare (data env self NameRole).toString (data env other NameRole).toString < 0

end LobbyItemName

namespace LobbyItemDescription

/-- The constant `DescriptionRole`. -/
def DescriptionRole : Int := Qt.UserRole + 1

/-- The constructor `LobbyItemDescription(description)`. -/
def LobbyItemDescription (description : QString) : LobbyItem :=
  QStandardItem.empty.setData (QVariant.ofString description) DescriptionRole

/-- The override `LobbyItemDescription::data`. -/
def data (self : LobbyItem) (role : Int) : QVariant :=
  if h : role ≠ Qt.DisplayRole then
    LobbyItem.data self role
  else
    let description := (data self DescriptionRole).toString
    let description := QStringLiteral "Description: " ++ description
    QVariant.ofString description
termination_by (if role = Qt.DisplayRole then 1 else 0)
decreasing_by
  all_goals simp_wf
  all_goals simp_all [Qt.DisplayRole, Qt.UserRole, DescriptionRole]

/-- The override `LobbyItemDescription::operator<`. -/
def operatorLt (env : Env) (self other : LobbyItem) : Bool :=
  env.localeAwareCompare (data self DescriptionRole).toString
    (data other DescriptionRole).toString < 0

end LobbyItemDescription

namespace LobbyItemGame

/-- The constant `TitleIDRole`. -/
def TitleIDRole : Int := Qt.UserRole + 1
/-- The constant `GameNameRole`. -/
def GameNameRole : Int := Qt.UserRole + 2
/-- The constant `GameIconRole`. -/
def GameIconRole : Int := Qt.UserRole + 3

/-- The constructor `LobbyItemGame(title_id, game_name, smdh_icon)`. -/
def LobbyItemGame (env : Env) (title_id : Nat) (game_name : QString) (smdh_icon : QPixmap) :
    LobbyItem :=
  let self := QStandardItem.empty
  let self := self.setData (QVariant.ofULongLong (title_id % 2 ^ 64)) TitleIDRole
  let self := self.setData (QVariant.ofString game_name) GameNameRole
  if !smdh_icon.isNull then
    self.setData (QVariant.ofPixmap smdh_icon) GameIconRole
  else
    self.setData (QVariant.ofPixmap (env.themePixmap (QStringLiteral "chip") 32)) GameIconRole

/-- The override `LobbyItemGame::data`. -/
def data (self : LobbyItem) (role : Int) : QVariant :=
  if h : role = Qt.DecorationRole then
    let val := data self GameIconRole
    if val.isValid then
      QVariant.ofPixmap (val.valuePixmap.scaled 32 32)
    else
      let blank_image := QPixmap.ofSize 32 32
      let blank_image := blank_image.fillBlack
      QVariant.ofPixmap blank_image
  else if h2 : role ≠ Qt.DisplayRole then
    LobbyItem.data self role
  else
    QVariant.ofString (data self GameNameRole).toString
termination_by (if role = Qt.DecorationRole ∨ role = Qt.DisplayRole then 1 else 0)
decreasing_by
  all_goals simp_wf
  all_goals simp_all [Qt.DecorationRole, Qt.DisplayRole, Qt.UserRole, GameNameRole, GameIconRole]

/-- The override `LobbyItemGame::operator<`. -/
def operatorLt (env : Env) (self other : LobbyItem) : Bool :=
  env.localeAwareCompare (data self GameNameRole).toString
    (data other GameNameRole).toString < 0

end LobbyItemGame

namespace LobbyItemHost

/-- The constant `HostUsernameRole`. -/
def HostUsernameRole : Int := Qt.UserRole + 1
/-- The constant `HostIPRole`. -/
def HostIPRole : Int := Qt.UserRole + 2
/-- The constant `HostPortRole`. -/
def HostPortRole : Int := Qt.UserRole + 3
/-- The constant `HostVerifyUIDRole`. -/
def HostVerifyUIDRole : Int := Qt.UserRole + 4

/-- The constructor `LobbyItemHost(username, ip, port, verify_uid)`. -/
def LobbyItemHost (username ip : QString) (port : Nat) (verify_uid : QString) : LobbyItem :=
  let self := QStandardItem.empty
  let self := self.setData (QVariant.ofString username) HostUsernameRole
  let self := self.setData (QVariant.ofString ip) HostIPRole
  let self := self.setData (QVariant.ofInt ((port % 2 ^ 16 : Nat) : Int)) HostPortRole
  self.setData (QVariant.ofString verify_uid) HostVerifyUIDRole

/-- The override `LobbyItemHost::data`. -/
def data (self : LobbyItem) (role : Int) : QVariant :=
  if h : role ≠ Qt.DisplayRole then
    LobbyItem.data self role
  else
    QVariant.ofString (data self HostUsernameRole).toString
termination_by (if role = Qt.DisplayRole then 1 else 0)
decreasing_by
  all_goals simp_wf
  all_goals simp_all [Qt.DisplayRole, Qt.UserRole, HostUsernameRole]

/-- The override `LobbyItemHost::operator<`. -/
def operatorLt (env : Env) (self other : LobbyItem) : Bool :=
  env.localeAwareCompare (data self HostUsernameRole).toString
    (data other HostUsernameRole).toString < 0

end LobbyItemHost

namespace LobbyItemMemberList

/-- The constant `MemberListRole`. -/
def MemberListRole : Int := Qt.UserRole + 1
/-- The constant `MaxPlayerRole`. -/
def MaxPlayerRole : Int := Qt.UserRole + 2

/-- The constructor `LobbyItemMemberList(members, max_players)`; the parameter
`max_players` is a `u32`. -/
def LobbyItemMemberList (members : List QVariant) (max_players : Nat) : LobbyItem :=
  let self := QStandardItem.empty
  let self := self.setData (QVariant.ofList members) MemberListRole
  self.setData (QVariant.ofUInt (toU32 max_players)) MaxPlayerRole

/-- The override `LobbyItemMemberList::data`. The subtraction `max_players - 1`
is an `int` subtraction and is narrowed accordingly. -/
def data (self : LobbyItem) (role : Int) : QVariant :=
  if h : role = Qt.DisplayRole then
    let members := (data self MemberListRole).toList
    QVariant.ofString (QString.arg (QStringLiteral "%1 / %2 ")
      [QString.number members.length, (data self MaxPlayerRole).toString])
  else if h2 : role = Qt.ForegroundRole then
    let members := (data self MemberListRole).toList
    let max_players := (data self MaxPlayerRole).toInt
    if (members.length : Int) ≥ max_players then
      QVariant.ofBrush (QBrush.ofRgb 255 48 32)
    else if (members.length : Int) = toInt32 (max_players - 1) then
      QVariant.ofBrush (QBrush.ofRgb 255 140 32)
    else if members.length = 0 then
      QVariant.ofBrush (QBrush.ofRgb 128 128 128)
    else
      QVariant.ofBrush QBrush.ofNullptr
  else
    LobbyItem.data self role
termination_by (if role = Qt.DisplayRole ∨ role = Qt.ForegroundRole then 1 else 0)
decreasing_by
  all_goals simp_wf
  all_goals simp_all [Qt.DisplayRole, Qt.ForegroundRole, Qt.UserRole, MemberListRole, MaxPlayerRole]

/-- The override `LobbyItemMemberList::operator<`; each size is assigned to an
`int` variable. -/
def operatorLt (self other : LobbyItem) : Bool :=
  let left_members := toInt32 (data self MemberListRole).toList.length
  let right_members := toInt32 (data other MemberListRole).toList.length
  left_members < right_members

end LobbyItemMemberList

namespace LobbyItemExpandedMemberList

/-- The constant `MemberListRole`. -/
def MemberListRole : Int := Qt.UserRole + 1

/-- The text one member adds to the output. -/
def memberText (env : Env) (member : QVariant) : QString :=
  let m := member.valueLobbyMember
  if m.GetGameName.isEmpty then
    QString.arg (env.tr (QStringLiteral "%1 is not playing a game")) [m.GetName]
  else
    QString.arg (env.tr (QStringLiteral "%1 is playing %2")) [m.GetName, m.GetGameName]

/-- The loop over the members: the state is `out` and `first`. -/
def appendMembers (env : Env) : List QVariant → QString → Bool → QString
  | [], out, _ => out
  | member :: rest, out, first =>
    let out := if !first then out ++ QStringLiteral "\n" else out
    let out := out ++ memberText env member
    appendMembers env rest out false

/-- The override `LobbyItemExpandedMemberList::data`. -/
def data (env : Env) (self : LobbyItem) (role : Int) : QVariant :=
  if h : role ≠ Qt.DisplayRole then
    LobbyItem.data self role
  else
    let members := (data env self MemberListRole).toList
    QVariant.ofString (appendMembers env members [] true)
termination_by (if role = Qt.DisplayRole then 1 else 0)
decreasing_by
  all_goals simp_wf
  all_goals simp_all [Qt.DisplayRole, Qt.UserRole, MemberListRole]

end LobbyItemExpandedMemberList

/-! ## Vocabulary of the statements -/

/-- The `int` that `data(MaxPlayerRole).toInt()` reads back from an item built
with capacity `max_players`. -/
def storedMaxPlayers (max_players : Nat) : Int :=
  (QVariant.ofUInt (toU32 max_players)).toInt

/-- The "full" colour, alert red. -/
def fullColour : QVariant := QVariant.ofBrush (QBrush.ofRgb 255 48 32)
/-- The "near-full" colour, warning orange. -/
def nearFullColour : QVariant := QVariant.ofBrush (QBrush.ofRgb 255 140 32)
/-- The "empty" colour, neutral gray. -/
def emptyColour : QVariant := QVariant.ofBrush (QBrush.ofRgb 128 128 128)
/-- The value returned when no colour rule applies: the brush `QBrush(nullptr)`,
which names no colour. -/
def noOverride : QVariant := QVariant.ofBrush QBrush.ofNullptr

/-- A strict weak ordering, for a comparison that answers with a `Bool`. -/
structure IsStrictWeakOrdering {α : Type} (lt : α → α → Bool) : Prop where
  irreflexive : ∀ a, lt a a = false
  asymmetric : ∀ a b, lt a b = true → lt b a = false
  transitive : ∀ a b c, lt a b = true → lt b c = true → lt a c = true
  incomparable_transitive : ∀ a b c, lt a b = false → lt b a = false →
    lt b c = false → lt c b = false → lt a c = false ∧ lt c a = false

/-- A three-way comparison that is a consistent total preorder. -/
structure IsConsistentCompare (compare : QString → QString → Int) : Prop where
  reflexive : ∀ s, compare s s = 0
  antisymmetric : ∀ s t, compare s t < 0 ↔ 0 < compare t s
  transitive : ∀ s t u, compare s t ≤ 0 → compare t u ≤ 0 → compare s u ≤ 0

/-- Comparison of two strings by code points, the collation of the C locale. -/
def codePointCompare (s t : QString) : Int :=
  if s < t then -1 else if s = t then 0 else 1

/-- An environment with code-point collation, no translation catalogue and an
icon theme that has no icons. -/
def plainEnv : Env := ⟨codePointCompare, fun s => s, fun _ _ => QPixmap.null⟩

namespace Spec

/-- Derived display name of a member, in the words of the data model. -/
def displayName (m : LobbyMember) : QString :=
  if m.username = [] ∨ m.username = m.nickname then m.nickname
  else m.nickname ++ QStringLiteral " (" ++ m.username ++ QStringLiteral ")"

end Spec

/-! ## Reading back what the constructors store -/

theorem toInt32_eq_self (v : Int) (h0 : -2147483648 ≤ v) (h1 : v < 2147483648) :
    toInt32 v = v := by
  unfold toInt32 intModulus
  simp only [Nat.cast_ofNat]
  split <;> omega

theorem toInt32_range (v : Int) : -2147483648 ≤ toInt32 v ∧ toInt32 v < 2147483648 := by
  unfold toInt32 intModulus
  simp only [Nat.cast_ofNat]
  split <;> omega

theorem storedMaxPlayers_eq (max_players : Nat) :
    storedMaxPlayers max_players = toInt32 ((toU32 max_players : Nat) : Int) := by
  unfold storedMaxPlayers
  simp only [QVariant.toInt]

theorem storedMaxPlayers_range (max_players : Nat) :
    -2147483648 ≤ storedMaxPlayers max_players ∧ storedMaxPlayers max_players < 2147483648 := by
  rw [storedMaxPlayers_eq]
  exact toInt32_range _

theorem storedMaxPlayers_eq_self (max_players : Nat) (h : max_players < 2147483648) :
    storedMaxPlayers max_players = max_players := by
  have hm : toU32 max_players = max_players := by
    unfold toU32 intModulus
    omega
  rw [storedMaxPlayers_eq, hm]
  exact toInt32_eq_self _ (by omega) (by omega)

namespace LobbyItemMemberList

theorem memberList_data_other_role (self : LobbyItem) (role : Int) (h1 : role ≠ Qt.DisplayRole)
    (h2 : role ≠ Qt.ForegroundRole) : data self role = LobbyItem.data self role := by
  rw [data]
  simp [h1, h2]

theorem memberList_data_members (members : List QVariant) (max_players : Nat) :
    data (LobbyItemMemberList members max_players) MemberListRole = QVariant.ofList members := by
  rw [memberList_data_other_role _ _ (by decide) (by decide)]
  rfl

theorem memberList_data_max_players (members : List QVariant) (max_players : Nat) :
    data (LobbyItemMemberList members max_players) MaxPlayerRole
      = QVariant.ofUInt (toU32 max_players) := by
  rw [memberList_data_other_role _ _ (by decide) (by decide)]
  rfl

theorem memberList_data_foreground (self : LobbyItem) :
    data self Qt.ForegroundRole =
      if ((data self MemberListRole).toList.length : Int) ≥ (data self MaxPlayerRole).toInt then
        fullColour
      else if ((data self MemberListRole).toList.length : Int)
          = toInt32 ((data self MaxPlayerRole).toInt - 1) then
        nearFullColour
      else if (data self MemberListRole).toList.length = 0 then
        emptyColour
      else
        noOverride := by
  rw [data]
  simp [Qt.ForegroundRole, Qt.DisplayRole, fullColour, nearFullColour, emptyColour, noOverride]

/-- The colour of a constructed item, with the subtraction carried out in the
integers: it is only evaluated when `1 ≤ max_players`, where it cannot
overflow. -/
theorem memberList_foreground_of_constructed (members : List QVariant) (max_players : Nat) :
    data (LobbyItemMemberList members max_players) Qt.ForegroundRole =
      if (members.length : Int) ≥ storedMaxPlayers max_players then fullColour
      else if (members.length : Int) = storedMaxPlayers max_players - 1 then nearFullColour
      else if members.length = 0 then emptyColour
      else noOverride := by
  rw [memberList_data_foreground, memberList_data_members, memberList_data_max_players]
  simp only [QVariant.toList]
  rw [← storedMaxPlayers]
  have hr := storedMaxPlayers_range max_players
  by_cases h : (members.length : Int) ≥ storedMaxPlayers max_players
  · simp [h]
  · have hsub : toInt32 (storedMaxPlayers max_players - 1) = storedMaxPlayers max_players - 1 :=
      toInt32_eq_self _ (by omega) (by omega)
    rw [hsub]

end LobbyItemMemberList

theorem colours_distinct :
    fullColour ≠ nearFullColour ∧ fullColour ≠ emptyColour ∧ fullColour ≠ noOverride ∧
    nearFullColour ≠ emptyColour ∧ nearFullColour ≠ noOverride ∧ emptyColour ≠ noOverride := by
  simp [fullColour, nearFullColour, emptyColour, noOverride, QBrush.ofRgb, QBrush.ofNullptr]

/-! ## Colour of the member-count column -/

/-- C2, as stated, fails: an empty room of capacity 1 is one seat short of full,
so it gets the near-full colour and not the empty colour. -/
theorem empty_room_capacity_one_is_near_full :
    LobbyItemMemberList.data (LobbyItemMemberList.LobbyItemMemberList [] 1) Qt.ForegroundRole
        = nearFullColour ∧
    LobbyItemMemberList.data (LobbyItemMemberList.LobbyItemMemberList [] 1) Qt.ForegroundRole
        ≠ emptyColour := by
  have h : LobbyItemMemberList.data (LobbyItemMemberList.LobbyItemMemberList [] 1)
      Qt.ForegroundRole = nearFullColour := by
    rw [LobbyItemMemberList.memberList_foreground_of_constructed,
      storedMaxPlayers_eq_self 1 (by norm_num)]
    simp
  exact ⟨h, by rw [h]; exact colours_distinct.2.2.2.1⟩

/-- C2, amended: a room without members whose capacity is at least 2 (and below
`2 ^ 31`) gets the empty colour RGB(128,128,128), whatever the capacity is. -/
theorem empty_room_colour (max_players : Nat) (h2 : 2 ≤ max_players)
    (h31 : max_players < 2147483648) :
    LobbyItemMemberList.data (LobbyItemMemberList.LobbyItemMemberList [] max_players)
        Qt.ForegroundRole = QVariant.ofBrush (QBrush.ofRgb 128 128 128) := by
  rw [LobbyItemMemberList.memberList_foreground_of_constructed, storedMaxPlayers_eq_self _ h31]
  have h1 : ¬ ((([] : List QVariant).length : Int) ≥ (max_players : Int)) := by
    simp only [List.length_nil]; omega
  have h3 : ¬ ((([] : List QVariant).length : Int) = (max_players : Int) - 1) := by
    simp only [List.length_nil]; omega
  rw [if_neg h1, if_neg h3, if_pos List.length_nil]
  rfl

/-- Witness of `empty_room_colour`: an empty room of capacity 8. -/
theorem empty_room_colour_witness :
    2 ≤ 8 ∧ 8 < 2147483648 ∧
    LobbyItemMemberList.data (LobbyItemMemberList.LobbyItemMemberList [] 8)
        Qt.ForegroundRole = QVariant.ofBrush (QBrush.ofRgb 128 128 128) :=
  ⟨by decide, by decide, empty_room_colour 8 (by decide) (by decide)⟩

/-- C3: with capacity 0 every member list gets the full colour; the capacity is
read back as 0, the comparison with `max_players - 1 = -1` can match no size,
and the result is never the near-full colour. -/
theorem zero_capacity_always_full (members : List QVariant) :
    LobbyItemMemberList.data (LobbyItemMemberList.LobbyItemMemberList members 0)
        Qt.ForegroundRole = QVariant.ofBrush (QBrush.ofRgb 255 48 32) ∧
    storedMaxPlayers 0 = 0 ∧
    (members.length : Int) ≥ storedMaxPlayers 0 ∧
    toInt32 (storedMaxPlayers 0 - 1) = -1 ∧
    (members.length : Int) ≠ toInt32 (storedMaxPlayers 0 - 1) ∧
    LobbyItemMemberList.data (LobbyItemMemberList.LobbyItemMemberList members 0)
        Qt.ForegroundRole ≠ nearFullColour := by
  have h0 : storedMaxPlayers 0 = 0 := by
    simpa using storedMaxPlayers_eq_self 0 (by norm_num)
  have hsub : toInt32 (storedMaxPlayers 0 - 1) = -1 := by
    rw [h0]; exact toInt32_eq_self _ (by norm_num) (by norm_num)
  have hfull : LobbyItemMemberList.data (LobbyItemMemberList.LobbyItemMemberList members 0)
      Qt.ForegroundRole = fullColour := by
    rw [LobbyItemMemberList.memberList_foreground_of_constructed, h0]
    simp
  refine ⟨hfull, h0, ?_, hsub, ?_, ?_⟩
  · rw [h0]; exact Int.ofNat_nonneg _
  · rw [hsub]; omega
  · rw [hfull]; exact colours_distinct.1

/-- C10: the brush that names no colour is returned exactly when
`0 < n < max_players - 1` (with `max_players` the `int` the code reads back);
a room that is empty, one seat short of full, full or over capacity gets one of
the three fixed colours, and only such a room does. -/
theorem no_override_iff (members : List QVariant) (max_players : Nat) :
    (LobbyItemMemberList.data (LobbyItemMemberList.LobbyItemMemberList members max_players)
        Qt.ForegroundRole = noOverride ↔
      0 < members.length ∧ (members.length : Int) < storedMaxPlayers max_players - 1) ∧
    ((members.length = 0 ∨ (members.length : Int) = storedMaxPlayers max_players - 1 ∨
        (members.length : Int) ≥ storedMaxPlayers max_players) ↔
      (LobbyItemMemberList.data (LobbyItemMemberList.LobbyItemMemberList members max_players)
          Qt.ForegroundRole = fullColour ∨
       LobbyItemMemberList.data (LobbyItemMemberList.LobbyItemMemberList members max_players)
          Qt.ForegroundRole = nearFullColour ∨
       LobbyItemMemberList.data (LobbyItemMemberList.LobbyItemMemberList members max_players)
          Qt.ForegroundRole = emptyColour)) := by
  rw [LobbyItemMemberList.memberList_foreground_of_constructed]
  obtain ⟨d1, d2, d3, d4, d5, d6⟩ := colours_distinct
  by_cases h1 : (members.length : Int) ≥ storedMaxPlayers max_players
  · rw [if_pos h1]
    refine ⟨⟨fun h => absurd h d3, fun h => by omega⟩, ⟨fun _ => Or.inl rfl, fun _ => Or.inr (Or.inr h1)⟩⟩
  · rw [if_neg h1]
    by_cases h2 : (members.length : Int) = storedMaxPlayers max_players - 1
    · rw [if_pos h2]
      refine ⟨⟨fun h => absurd h d5, fun h => by omega⟩,
        ⟨fun _ => Or.inr (Or.inl rfl), fun _ => Or.inr (Or.inl h2)⟩⟩
    · rw [if_neg h2]
      by_cases h3 : members.length = 0
      · rw [if_pos h3]
        refine ⟨⟨fun h => absurd h d6, fun h => by omega⟩,
          ⟨fun _ => Or.inr (Or.inr rfl), fun _ => Or.inl h3⟩⟩
      · rw [if_neg h3]
        refine ⟨⟨fun _ => ⟨by omega, by omega⟩, fun _ => rfl⟩, ⟨fun h => ?_, fun h => ?_⟩⟩
        · rcases h with h | h | h
          · exact absurd h h3
          · exact absurd h h2
          · exact absurd h h1
        · rcases h with h | h | h
          · exact absurd h.symm d3
          · exact absurd h.symm d5
          · exact absurd h.symm d6

/-! ## Names and the expanded member list -/

theorem isEmpty_iff (s : QString) : QString.isEmpty s = true ↔ s = [] := by
  cases s <;> simp [QString.isEmpty]

theorem arg_name_format (a b : QString) :
    QString.arg (QStringLiteral "%1 (%2)") [a, b]
      = a ++ QStringLiteral " (" ++ b ++ QStringLiteral ")" := by
  have h : parseFormat (QStringLiteral "%1 (%2)")
      = [Part.marker 1 [Char.ofNat 37, Char.ofNat 49], Part.text [Char.ofNat 32],
         Part.text [Char.ofNat 40], Part.marker 2 [Char.ofNat 37, Char.ofNat 50],
         Part.text [Char.ofNat 41]] := by rfl
  have e1 : QStringLiteral " (" = [Char.ofNat 32, Char.ofNat 40] := by rfl
  have e2 : QStringLiteral ")" = [Char.ofNat 41] := by rfl
  rw [QString.arg, h, e1, e2]
  simp [markerNumbers, insertNumber, fillParts, fillPart, positionOf]

theorem GetName_eq_displayName (m : LobbyMember) : m.GetName = Spec.displayName m := by
  unfold LobbyMember.GetName Spec.displayName
  by_cases h : m.username = [] ∨ m.username = m.nickname
  · rw [if_pos h, if_pos]
    rcases h with h | h
    · simp [h, QString.isEmpty]
    · simp [h]
  · rw [if_neg h, if_neg, arg_name_format]
    simpa [isEmpty_iff] using h

namespace LobbyItemExpandedMemberList

end LobbyItemExpandedMemberList

/-- C5: `LobbyMember::GetName` returns the nickname when the username is empty
or equal to the nickname, and otherwise the nickname followed by " (", the
username and ")"; the result is the nickname exactly in the first case. -/
theorem GetName_contract (m : LobbyMember) :
    m.GetName =
      (if m.username = [] ∨ m.username = m.nickname then m.nickname
       else m.nickname ++ QStringLiteral " (" ++ m.username ++ QStringLiteral ")") ∧
    (m.GetName = m.nickname ↔ (m.username = [] ∨ m.username = m.nickname)) := by
  have hname := GetName_eq_displayName m
  unfold Spec.displayName at hname
  refine ⟨hname, ?_⟩
  rw [hname]
  by_cases h : m.username = [] ∨ m.username = m.nickname
  · simp [h]
  · rw [if_neg h]
    refine ⟨fun heq => ?_, fun hc => absurd hc h⟩
    have hlen := congrArg List.length heq
    simp [QStringLiteral] at hlen

theorem swo_of_key {α κ : Type} (key : α → κ) (lt : κ → κ → Bool)
    (h : IsStrictWeakOrdering lt) : IsStrictWeakOrdering (fun a b => lt (key a) (key b)) :=
  ⟨fun a => h.irreflexive (key a),
   fun a b => h.asymmetric (key a) (key b),
   fun a b c => h.transitive (key a) (key b) (key c),
   fun a b c => h.incomparable_transitive (key a) (key b) (key c)⟩

theorem swo_int_lt : IsStrictWeakOrdering (fun x y : Int => decide (x < y)) := by
  refine ⟨?_, ?_, ?_, ?_⟩
  · intro a; simp
  · intro a b; simp only [decide_eq_true_eq, decide_eq_false_iff_not]; omega
  · intro a b c; simp only [decide_eq_true_eq]; omega
  · intro a b c; simp only [decide_eq_false_iff_not]; omega

theorem swo_of_compare (compare : QString → QString → Int) (h : IsConsistentCompare compare) :
    IsStrictWeakOrdering (fun s t => decide (compare s t < 0)) := by
  have zero_of : ∀ s t, ¬ compare s t < 0 → ¬ compare t s < 0 → compare s t = 0 := by
    intro s t h1 h2
    have h3 : ¬ 0 < compare s t := fun hp => h2 ((h.antisymmetric t s).2 hp)
    omega
  refine ⟨?_, ?_, ?_, ?_⟩
  · intro a
    simp [h.reflexive a]
  · intro a b
    simp only [decide_eq_true_eq, decide_eq_false_iff_not]
    intro hab hba
    have := (h.antisymmetric a b).1 hab
    omega
  · intro a b c
    simp only [decide_eq_true_eq]
    intro hab hbc
    have hac : compare a c ≤ 0 := h.transitive a b c (by omega) (by omega)
    by_contra hn
    have hca : ¬ compare c a < 0 := fun hlt => by
      have := (h.antisymmetric c a).1 hlt
      omega
    have hca0 : compare c a = 0 := zero_of c a hca hn
    have hcb : compare c b ≤ 0 := h.transitive c a b (by omega) (by omega)
    have := (h.antisymmetric b c).1 hbc
    omega
  · intro a b c
    simp only [decide_eq_false_iff_not]
    intro hab hba hbc hcb
    have e1 := zero_of a b hab hba
    have e2 := zero_of b a hba hab
    have e3 := zero_of b c hbc hcb
    have e4 := zero_of c b hcb hbc
    have hac : compare a c ≤ 0 := h.transitive a b c (by omega) (by omega)
    have hca : compare c a ≤ 0 := h.transitive c b a (by omega) (by omega)
    refine ⟨fun hlt => ?_, fun hlt => ?_⟩
    · have := (h.antisymmetric a c).1 hlt
      omega
    · have := (h.antisymmetric c a).1 hlt
      omega

theorem codePointCompare_consistent : IsConsistentCompare codePointCompare := by
  have neg_iff : ∀ s t : QString, codePointCompare s t < 0 ↔ s < t := by
    intro s t
    unfold codePointCompare
    split
    · simp [*]
    · split <;> simp [*]
  have pos_iff : ∀ s t : QString, 0 < codePointCompare s t ↔ t < s := by
    intro s t
    unfold codePointCompare
    by_cases h1 : s < t
    · simp [h1, lt_asymm h1]
    · by_cases h2 : s = t
      · simp [h2]
      · simp only [h1, h2, if_false]
        have : t < s := lt_of_le_of_ne (not_lt.1 h1) (Ne.symm h2)
        simp [this]
  have le_iff : ∀ s t : QString, codePointCompare s t ≤ 0 ↔ s ≤ t := by
    intro s t
    have := pos_iff s t
    rw [← not_lt, ← not_lt, this]
  refine ⟨?_, ?_, ?_⟩
  · intro s
    simp [codePointCompare]
  · intro s t
    rw [neg_iff, pos_iff]
  · intro s t u h1 h2
    rw [le_iff] at *
    exact le_trans h1 h2

namespace LobbyItemName

theorem name_data_other_role (env : Env) (self : LobbyItem) (role : Int)
    (h1 : role ≠ Qt.DecorationRole) (h2 : role ≠ Qt.DisplayRole) :
    data env self role = LobbyItem.data self role := by
  rw [data]
  simp [h1, h2]

theorem name_data_name (env : Env) (has_password : Bool) (name : QString) :
    data env (LobbyItemName has_password name) NameRole = QVariant.ofString name := by
  rw [name_data_other_role _ _ _ (by decide) (by decide)]
  rfl

end LobbyItemName

namespace LobbyItemDescription

theorem description_data_other_role (self : LobbyItem) (role : Int) (h : role ≠ Qt.DisplayRole) :
    data self role = LobbyItem.data self role := by
  rw [data]
  simp [h]

theorem description_data_description (description : QString) :
    data (LobbyItemDescription description) DescriptionRole
      = QVariant.ofString description := by
  rw [description_data_other_role _ _ (by decide)]
  rfl

theorem description_data_display (self : LobbyItem) :
    data self Qt.DisplayRole
      = QVariant.ofString (QStringLiteral "Description: "
          ++ (data self DescriptionRole).toString) := by
  rw [data]
  simp [Qt.DisplayRole]

end LobbyItemDescription

namespace LobbyItemGame

theorem game_data_other_role (self : LobbyItem) (role : Int)
    (h1 : role ≠ Qt.DecorationRole) (h2 : role ≠ Qt.DisplayRole) :
    data self role = LobbyItem.data self role := by
  rw [data]
  simp [h1, h2]

theorem game_data_game_name (env : Env) (title_id : Nat) (game_name : QString) (smdh_icon : QPixmap) :
    data (LobbyItemGame env title_id game_name smdh_icon) GameNameRole
      = QVariant.ofString game_name := by
  rw [game_data_other_role _ _ (by decide) (by decide)]
  unfold LobbyItemGame
  split <;> rfl

theorem game_data_game_icon (env : Env) (title_id : Nat) (game_name : QString) (smdh_icon : QPixmap) :
    data (LobbyItemGame env title_id game_name smdh_icon) GameIconRole
      = QVariant.ofPixmap (if smdh_icon.isNull then env.themePixmap (QStringLiteral "chip") 32
          else smdh_icon) := by
  rw [game_data_other_role _ _ (by decide) (by decide)]
  unfold LobbyItemGame
  cases h : smdh_icon.isNull
  · simp only [Bool.not_false, if_true]
    rfl
  · simp only [Bool.not_true, if_true]
    rfl

theorem game_data_decoration (self : LobbyItem) :
    data self Qt.DecorationRole =
      if (data self GameIconRole).isValid then
        QVariant.ofPixmap ((data self GameIconRole).valuePixmap.scaled 32 32)
      else
        QVariant.ofPixmap (QPixmap.ofSize 32 32).fillBlack := by
  rw [data]
  simp [Qt.DecorationRole]

end LobbyItemGame

namespace LobbyItemHost

theorem host_data_other_role (self : LobbyItem) (role : Int) (h : role ≠ Qt.DisplayRole) :
    data self role = LobbyItem.data self role := by
  rw [data]
  simp [h]

theorem host_data_username (username ip : QString) (port : Nat) (verify_uid : QString) :
    data (LobbyItemHost username ip port verify_uid) HostUsernameRole
      = QVariant.ofString username := by
  rw [host_data_other_role _ _ (by decide)]
  rfl

end LobbyItemHost

theorem scaledSize_fits (wd ht n : Nat) :
    (QPixmap.scaledSize wd ht n n).1 ≤ n ∧ (QPixmap.scaledSize wd ht n n).2 ≤ n := by
  unfold QPixmap.scaledSize
  by_cases h0 : wd = 0 ∨ ht = 0
  · simp [h0]
  · rw [if_neg h0]
    have hw : 0 < wd := by omega
    have hh : 0 < ht := by omega
    simp only []
    by_cases h1 : n * wd / ht ≤ n
    · rw [if_pos h1]
      exact ⟨h1, le_refl n⟩
    · rw [if_neg h1]
      refine ⟨le_refl n, ?_⟩
      have hle : ht ≤ wd := by
        by_contra hc
        apply h1
        apply Nat.div_le_of_le_mul
        rw [Nat.mul_comm ht n]
        exact Nat.mul_le_mul_left n (by omega)
      apply Nat.div_le_of_le_mul
      rw [Nat.mul_comm wd n]
      exact Nat.mul_le_mul_left n hle

theorem scaled_fits (p : QPixmap) :
    (p.scaled 32 32).width ≤ 32 ∧ (p.scaled 32 32).height ≤ 32 := by
  unfold QPixmap.scaled
  have hs := scaledSize_fits p.width p.height 32
  by_cases hn : p.isNull = true
  · simp [hn, QPixmap.null]
  · rw [if_neg hn, if_neg (by decide)]
    simp only []
    split
    · rename_i heq
      constructor
      · rw [← heq.1]; exact max_le hs.1 (by decide)
      · rw [← heq.2]; exact max_le hs.2 (by decide)
    · exact ⟨max_le hs.1 (by decide), max_le hs.2 (by decide)⟩

theorem memberList_swo : IsStrictWeakOrdering LobbyItemMemberList.operatorLt :=
  swo_of_key
    (fun it : LobbyItem =>
      toInt32 (LobbyItemMemberList.data it LobbyItemMemberList.MemberListRole).toList.length)
    (fun x y : Int => decide (x < y)) swo_int_lt

theorem memberList_lt_constructed (a b : List QVariant) (ma mb : Nat) :
    LobbyItemMemberList.operatorLt (LobbyItemMemberList.LobbyItemMemberList a ma)
        (LobbyItemMemberList.LobbyItemMemberList b mb)
      = decide (toInt32 a.length < toInt32 b.length) := by
  unfold LobbyItemMemberList.operatorLt
  rw [LobbyItemMemberList.memberList_data_members, LobbyItemMemberList.memberList_data_members]
  rfl

/-- C6: for two member-count items whose lists have a size that fits an `int`
(every `QList` does), `a < b` holds exactly when `a` has strictly fewer members
than `b`, and the two compare as neither-less in both directions exactly when
the counts are equal, whatever the members and capacities are. -/
theorem member_count_lt_iff (a b : List QVariant) (ma mb : Nat)
    (ha : a.length < 2147483648) (hb : b.length < 2147483648) :
    (LobbyItemMemberList.operatorLt (LobbyItemMemberList.LobbyItemMemberList a ma)
        (LobbyItemMemberList.LobbyItemMemberList b mb) = true ↔ a.length < b.length) ∧
    ((LobbyItemMemberList.operatorLt (LobbyItemMemberList.LobbyItemMemberList a ma)
        (LobbyItemMemberList.LobbyItemMemberList b mb) = false ∧
      LobbyItemMemberList.operatorLt (LobbyItemMemberList.LobbyItemMemberList b mb)
        (LobbyItemMemberList.LobbyItemMemberList a ma) = false) ↔ a.length = b.length) := by
  rw [memberList_lt_constructed, memberList_lt_constructed,
    toInt32_eq_self a.length (by omega) (by omega),
    toInt32_eq_self b.length (by omega) (by omega)]
  simp only [decide_eq_true_eq, decide_eq_false_iff_not]
  constructor <;> omega

/-- Witness of `member_count_lt_iff`: a room with five members against a room
with three, of different capacities: the first is not less, the second is. -/
theorem member_count_lt_iff_witness :
    (List.replicate 3 QVariant.Invalid).length < 2147483648 ∧
    (List.replicate 5 QVariant.Invalid).length < 2147483648 ∧
    LobbyItemMemberList.operatorLt
        (LobbyItemMemberList.LobbyItemMemberList (List.replicate 3 QVariant.Invalid) 8)
        (LobbyItemMemberList.LobbyItemMemberList (List.replicate 5 QVariant.Invalid) 16) = true ∧
    ¬ LobbyItemMemberList.operatorLt
        (LobbyItemMemberList.LobbyItemMemberList (List.replicate 5 QVariant.Invalid) 16)
        (LobbyItemMemberList.LobbyItemMemberList (List.replicate 3 QVariant.Invalid) 8) = true :=
  ⟨by decide, by decide,
   (member_count_lt_iff (List.replicate 3 QVariant.Invalid) (List.replicate 5 QVariant.Invalid)
      8 16 (by decide) (by decide)).1.2 (by decide),
   fun h => absurd ((member_count_lt_iff (List.replicate 5 QVariant.Invalid)
      (List.replicate 3 QVariant.Invalid) 16 8 (by decide) (by decide)).1.1 h) (by decide)⟩

/-- C7: the `operator<` of the member-count column is a strict weak ordering
(irreflexive, asymmetric, transitive, incomparability transitive) and rooms
with equally many members compare as neither-less, with no assumption; when the
locale-aware comparison is a consistent total preorder, the `operator<` of the
game, name, description and host columns are strict weak orderings too, and
rows with equal keys (such as two empty game names) compare as neither-less in
both directions. -/
theorem column_orderings_strict_weak (env : Env) :
    (IsStrictWeakOrdering LobbyItemMemberList.operatorLt ∧
      ∀ (a b : List QVariant) (ma mb : Nat), a.length = b.length →
        LobbyItemMemberList.operatorLt (LobbyItemMemberList.LobbyItemMemberList a ma)
          (LobbyItemMemberList.LobbyItemMemberList b mb) = false ∧
        LobbyItemMemberList.operatorLt (LobbyItemMemberList.LobbyItemMemberList b mb)
          (LobbyItemMemberList.LobbyItemMemberList a ma) = false) ∧
    (IsConsistentCompare env.localeAwareCompare →
      IsStrictWeakOrdering (LobbyItemGame.operatorLt env) ∧
      IsStrictWeakOrdering (LobbyItemName.operatorLt env) ∧
      IsStrictWeakOrdering (LobbyItemDescription.operatorLt env) ∧
      IsStrictWeakOrdering (LobbyItemHost.operatorLt env) ∧
      (∀ (name : QString) (t1 t2 : Nat) (i1 i2 : QPixmap),
        LobbyItemGame.operatorLt env (LobbyItemGame.LobbyItemGame env t1 name i1)
          (LobbyItemGame.LobbyItemGame env t2 name i2) = false) ∧
      (∀ (name : QString) (p1 p2 : Bool),
        LobbyItemName.operatorLt env (LobbyItemName.LobbyItemName p1 name)
          (LobbyItemName.LobbyItemName p2 name) = false) ∧
      (∀ description : QString,
        LobbyItemDescription.operatorLt env
          (LobbyItemDescription.LobbyItemDescription description)
          (LobbyItemDescription.LobbyItemDescription description) = false) ∧
      (∀ (username ip1 ip2 : QString) (port1 port2 : Nat) (uid1 uid2 : QString),
        LobbyItemHost.operatorLt env (LobbyItemHost.LobbyItemHost username ip1 port1 uid1)
          (LobbyItemHost.LobbyItemHost username ip2 port2 uid2) = false)) := by
  refine ⟨⟨memberList_swo, ?_⟩, ?_⟩
  · intro a b ma mb hab
    rw [memberList_lt_constructed, memberList_lt_constructed, hab]
    simp
  · intro hc
    have hs := swo_of_compare env.localeAwareCompare hc
    refine ⟨?_, ?_, ?_, ?_, ?_, ?_, ?_, ?_⟩
    · exact swo_of_key
        (fun it : LobbyItem => (LobbyItemGame.data it LobbyItemGame.GameNameRole).toString) _ hs
    · exact swo_of_key
        (fun it : LobbyItem => (LobbyItemName.data env it LobbyItemName.NameRole).toString) _ hs
    · exact swo_of_key
        (fun it : LobbyItem =>
          (LobbyItemDescription.data it LobbyItemDescription.DescriptionRole).toString) _ hs
    · exact swo_of_key
        (fun it : LobbyItem => (LobbyItemHost.data it LobbyItemHost.HostUsernameRole).toString) _ hs
    · intro name t1 t2 i1 i2
      unfold LobbyItemGame.operatorLt
      rw [LobbyItemGame.game_data_game_name, LobbyItemGame.game_data_game_name]
      exact hs.irreflexive name
    · intro name p1 p2
      unfold LobbyItemName.operatorLt
      rw [LobbyItemName.name_data_name, LobbyItemName.name_data_name]
      exact hs.irreflexive name
    · intro description
      unfold LobbyItemDescription.operatorLt
      rw [LobbyItemDescription.description_data_description]
      exact hs.irreflexive description
    · intro username ip1 ip2 port1 port2 uid1 uid2
      unfold LobbyItemHost.operatorLt
      rw [LobbyItemHost.host_data_username, LobbyItemHost.host_data_username]
      exact hs.irreflexive username

/-- Witness of `column_orderings_strict_weak`: with code-point collation, the
game column is a strict weak ordering and two rooms with an empty game name
compare as neither-less. -/
theorem column_orderings_strict_weak_witness :
    IsConsistentCompare plainEnv.localeAwareCompare ∧
    IsStrictWeakOrdering (LobbyItemGame.operatorLt plainEnv) ∧
    LobbyItemGame.operatorLt plainEnv
      (LobbyItemGame.LobbyItemGame plainEnv 1 (QStringLiteral "") QPixmap.null)
      (LobbyItemGame.LobbyItemGame plainEnv 2 (QStringLiteral "") ⟨64, 64, PixmapData.source 7⟩)
        = false ∧
    LobbyItemGame.operatorLt plainEnv
      (LobbyItemGame.LobbyItemGame plainEnv 2 (QStringLiteral "") ⟨64, 64, PixmapData.source 7⟩)
      (LobbyItemGame.LobbyItemGame plainEnv 1 (QStringLiteral "") QPixmap.null)
        = false :=
  ⟨codePointCompare_consistent,
   ((column_orderings_strict_weak plainEnv).2 codePointCompare_consistent).1,
   ((column_orderings_strict_weak plainEnv).2 codePointCompare_consistent).2.2.2.2.1
      (QStringLiteral "") 1 2 QPixmap.null ⟨64, 64, PixmapData.source 7⟩,
   ((column_orderings_strict_weak plainEnv).2 codePointCompare_consistent).2.2.2.2.1
      (QStringLiteral "") 2 1 ⟨64, 64, PixmapData.source 7⟩ QPixmap.null⟩

/-- C8: for every description `d`, the empty one included, the display text of
the description item is "Description: " followed by `d`, and `operator<` of
the items built from `d1` and `d2` is `localeAwareCompare(d1, d2) < 0`, taken
on the stored descriptions without the prefix. -/
theorem description_display_and_order (env : Env) (d d1 d2 : QString) :
    LobbyItemDescription.data (LobbyItemDescription.LobbyItemDescription d) Qt.DisplayRole
      = QVariant.ofString (QStringLiteral "Description: " ++ d) ∧
    LobbyItemDescription.data (LobbyItemDescription.LobbyItemDescription (QStringLiteral ""))
        Qt.DisplayRole
      = QVariant.ofString (QStringLiteral "Description: ") ∧
    LobbyItemDescription.operatorLt env (LobbyItemDescription.LobbyItemDescription d1)
        (LobbyItemDescription.LobbyItemDescription d2)
      = decide (env.localeAwareCompare d1 d2 < 0) := by
  refine ⟨?_, ?_, ?_⟩
  · rw [LobbyItemDescription.description_data_display, LobbyItemDescription.description_data_description]
    rfl
  · rw [LobbyItemDescription.description_data_display, LobbyItemDescription.description_data_description]
    rfl
  · unfold LobbyItemDescription.operatorLt
    rw [LobbyItemDescription.description_data_description, LobbyItemDescription.description_data_description]
    rfl

/-- C9, as stated, fails: with a null icon and a theme without the "chip" icon,
the decoration of a constructed game item is the null pixmap, not a filled
32x32 square. -/
theorem game_icon_without_theme_is_null :
    LobbyItemGame.data
        (LobbyItemGame.LobbyItemGame plainEnv 1 (QStringLiteral "Game") QPixmap.null)
        Qt.DecorationRole = QVariant.ofPixmap QPixmap.null ∧
    LobbyItemGame.data
        (LobbyItemGame.LobbyItemGame plainEnv 1 (QStringLiteral "Game") QPixmap.null)
        Qt.DecorationRole ≠ QVariant.ofPixmap ⟨32, 32, PixmapData.filledBlack⟩ := by
  have h : LobbyItemGame.data
      (LobbyItemGame.LobbyItemGame plainEnv 1 (QStringLiteral "Game") QPixmap.null)
      Qt.DecorationRole = QVariant.ofPixmap QPixmap.null := by
    rw [LobbyItemGame.game_data_decoration, LobbyItemGame.game_data_game_icon]
    rfl
  refine ⟨h, ?_⟩
  rw [h]
  simp [QPixmap.null]

/-- C9, amended: the decoration of a game item built by the constructor is the
stored pixmap scaled with preserved aspect ratio into 32x32, the stored pixmap
being the provided icon when it is not null and the pixmap of the theme icon
"chip" when it is; the result fits 32x32; scaling a null pixmap gives the null
pixmap; the filled 32x32 square is the decoration of an item that stores no
icon at all. -/
theorem game_icon_decoration (env : Env) (title_id : Nat) (game_name : QString)
    (smdh_icon : QPixmap) :
    LobbyItemGame.data (LobbyItemGame.LobbyItemGame env title_id game_name smdh_icon)
        Qt.DecorationRole
      = QVariant.ofPixmap
          ((if smdh_icon.isNull then env.themePixmap (QStringLiteral "chip") 32
            else smdh_icon).scaled 32 32) ∧
    ((if smdh_icon.isNull then env.themePixmap (QStringLiteral "chip") 32
        else smdh_icon).scaled 32 32).width ≤ 32 ∧
    ((if smdh_icon.isNull then env.themePixmap (QStringLiteral "chip") 32
        else smdh_icon).scaled 32 32).height ≤ 32 ∧
    QPixmap.null.scaled 32 32 = QPixmap.null ∧
    LobbyItemGame.data QStandardItem.empty Qt.DecorationRole
      = QVariant.ofPixmap ⟨32, 32, PixmapData.filledBlack⟩ := by
  refine ⟨?_, (scaled_fits _).1, (scaled_fits _).2, by rfl, ?_⟩
  · rw [LobbyItemGame.game_data_decoration, LobbyItemGame.game_data_game_icon]
    rfl
  · rw [LobbyItemGame.game_data_decoration, LobbyItemGame.game_data_other_role _ _ (by decide) (by decide)]
    rfl

end Lobby
